import Mathlib

/-!
Verification of the `Controller` component of the rpi-ws281x-rust repository
(`src/controller/controller.rs`) against its natural-language specification.

The controller wraps a driver-owned hardware-configuration record
(`ws2811_t`) in `Arc<Mutex<...>>` and exposes channel introspection,
brightness get/set, raw LED-buffer views, render/wait, and finalization on
drop.  We embed the record, the operations, the foreign LED memory and the
driver interface shallowly and settle the specification claims as theorems.
-/

namespace Ws281x

/-- Modelled from the spec: `RawColor` (defined in `util`, outside the given
sources) is a fixed-layout packed color value, one 32-bit word per LED.  We
model it as a natural number; its internal layout is irrelevant to every
claim, which only moves whole color values around. -/
abbrev RawColor := Nat

/-- Modelled from the spec: one entry of `ws2811_t.channel` (the C binding
`ws2811_channel_t`, outside the given sources).  The spec's data model gives
each channel a LED `count` (immutable after construction), a mutable
`brightness` byte, and a `leds` pointer to a foreign-owned contiguous buffer
of `count` color values.  The pointer is modelled as an address into the
foreign memory. -/
structure ChannelT where
  count : Nat
  brightness : Nat
  leds : Nat
deriving DecidableEq, Repr

instance : Inhabited ChannelT := ⟨⟨0, 0, 0⟩⟩

/-- Modelled from the spec: the hardware-configuration record `ws2811_t`
(outside the given sources).  The only part the controller code touches is
`channel`, a fixed-length ordered sequence of channel configurations. -/
structure Ws2811T where
  channel : List ChannelT
deriving DecidableEq, Repr

/-- Modelled from the spec (§7): the driver error taxonomy surfaced verbatim
through the `Result` conversion in `util` (outside the given sources). -/
inductive Ws2811Error where
  | GenericFailure
  | HardwareFault
  | OutOfMemory
  | GpioInitFailure
  | GpioInvalidPin
  | InvalidStringLength
  | DmaSetupFailure
  | PwmSetupFailure
  | InterruptSetupFailure
deriving DecidableEq, Repr

/-- The `Result<T>` type of `util`: success or a typed driver error. -/
abbrev DriverResult (α : Type) := Except Ws2811Error α

namespace Controller

/-- `Controller::channels`: under the lock, scan `0..channel.len()` and keep
the indices whose `count > 0` (source lines 65–75). -/
def channels (s : Ws2811T) : List Nat :=
  (List.range s.channel.length).filter (fun x => 0 < (s.channel.getD x default).count)

/-- `Controller::brightness` (source lines 78–81): `lock.channel[channel].brightness`.
Rust indexing panics when `channel` is out of range; the panic is modelled as
`none`. -/
def brightness (s : Ws2811T) (channel : Nat) : Option Nat :=
  (s.channel[channel]?).map (fun ch => ch.brightness)

/-- `Controller::set_brightness` (source lines 84–87):
`lock.channel[channel].brightness = value`.  Out-of-range indexing panics,
modelled as `none`; otherwise the record with the one field updated. -/
def set_brightness (s : Ws2811T) (channel : Nat) (value : Nat) : Option Ws2811T :=
  match s.channel[channel]? with
  | none => none
  | some ch => some { s with channel := s.channel.set channel { ch with brightness := value } }

/-- A raw slice view as produced by `from_raw_parts(_mut)`: a base pointer
into foreign memory and an element count. -/
structure LedView where
  ptr : Nat
  count : Nat
deriving DecidableEq, Repr

/-- `Controller::leds` (source lines 96–110): read
`lock.channel[channel].leds` and `lock.channel[channel].count` under the lock
and build a slice view from them.  Out-of-range indexing panics (`none`). -/
def leds (s : Ws2811T) (channel : Nat) : Option LedView :=
  match s.channel[channel]? with
  | none => none
  | some ch => some ⟨ch.leds, ch.count⟩

/-- `Controller::leds_mut` (source lines 119–133): identical pointer/count
read, building the mutable slice view. -/
def leds_mut (s : Ws2811T) (channel : Nat) : Option LedView :=
  match s.channel[channel]? with
  | none => none
  | some ch => some ⟨ch.leds, ch.count⟩

end Controller

/-- The foreign driver-owned LED memory: address to color word. -/
abbrev Mem := Nat → RawColor

/-- Pointwise store update of the foreign memory. -/
def memWrite (m : Mem) (a : Nat) (v : RawColor) : Mem :=
  fun x => if x = a then v else m x

namespace Controller

/-- The slice contents a view denotes: `count` consecutive color words
starting at `ptr`, read from the foreign memory (what `from_raw_parts`
exposes). -/
def LedView.toList (view : LedView) (m : Mem) : List RawColor :=
  (List.range view.count).map (fun i => m (view.ptr + i))

/-- Indexed read `slice[i]` through a view; out-of-bounds reads panic
(`none`). -/
def LedView.read (view : LedView) (m : Mem) (i : Nat) : Option RawColor :=
  if i < view.count then some (m (view.ptr + i)) else none

/-- Indexed write `slice[i] = x` through a mutable view: updates the foreign
memory; out-of-bounds writes panic (`none`). -/
def LedView.write (view : LedView) (m : Mem) (i : Nat) (x : RawColor) : Option Mem :=
  if i < view.count then some (memWrite m (view.ptr + i) x) else none

end Controller

/-- Modelled from the spec (§6): the external driver operations
`ws2811_render` and `ws2811_wait` (C bindings, outside the given sources)
each return a status, converted by `util` into a `Result`.  The oracle gives
the result of the k-th render call and of the k-th wait call, so that the
number of driver invocations a controller method performs is observable. -/
structure Driver where
  renderResult : Nat → DriverResult Unit
  waitResult : Nat → DriverResult Unit

/-- Runtime state of one controller/record pair: the shared record together
with counters of how many times each driver operation has been invoked on
it. -/
structure CState where
  record : Ws2811T
  renderCalls : Nat
  waitCalls : Nat
deriving Repr

namespace Controller

/-- `Controller::render` (source lines 27–41): under the lock, call
`ws2811_render` once on the record, convert the status, and return `Ok(())`
on success or the error unchanged.  The driver invocation is recorded in the
call counter. -/
def render (d : Driver) (st : CState) : DriverResult Unit × CState :=
  let result := d.renderResult st.renderCalls
  let st' := { st with renderCalls := st.renderCalls + 1 }
  match result with
  | .ok _ => (.ok (), st')
  | .error e => (.error e, st')

/-- `Controller::wait` (source lines 44–59): under the lock, call
`ws2811_wait` once on the record, convert the status, and return `Ok(())` on
success or the error unchanged. -/
def wait (d : Driver) (st : CState) : DriverResult Unit × CState :=
  let result := d.waitResult st.waitCalls
  let st' := { st with waitCalls := st.waitCalls + 1 }
  match result with
  | .ok _ => (.ok (), st')
  | .error e => (.error e, st')

end Controller

/-- The observable lifecycle state of the cloned `Controller` handles over
one `Arc<Mutex<ws2811_t>>`: the number of live handles (the `Arc` strong
count) and the number of `ws2811_fini` invocations made so far
(`ws2811_fini` itself is a C binding outside the given sources; only its
invocation count matters to the claims). -/
structure ArcState where
  strong : Nat
  finiCalls : Nat
deriving DecidableEq, Repr

namespace Controller

/-- `#[derive(Clone)]` on `Controller` (source line 9): cloning clones the
inner `Arc`, adding one live handle over the same record. -/
def cloneHandle (a : ArcState) : ArcState :=
  { a with strong := a.strong + 1 }

/-- `impl Drop for Controller` (source lines 136–148): dropping ANY handle
takes the lock and calls `ws2811_fini` on the record, unconditionally; then
the inner `Arc` is released, removing one live handle. -/
def dropHandle (a : ArcState) : ArcState :=
  { strong := a.strong - 1, finiCalls := a.finiCalls + 1 }

/-- Drop `n` handles in sequence (any drop order produces the same counts,
since every drop behaves identically). -/
def dropN : Nat → ArcState → ArcState
  | 0, a => a
  | n + 1, a => dropN n (dropHandle a)

end Controller

/-- Sharing model for cloned handles: each handle holds the address of its
`Arc` allocation, and a record heap maps such addresses to the shared
`ws2811_t` records.  `Clone` copies the address (`Arc::clone`), so clones
alias the same record. -/
structure Handle where
  arcAddr : Nat
deriving DecidableEq, Repr

/-- The heap of `Arc`-allocated records. -/
abbrev RecHeap := Nat → Ws2811T

namespace Controller

/-- Cloning a handle copies the `Arc` pointer: the clone aliases the same
record allocation. -/
def cloneOf (h : Handle) : Handle :=
  { arcAddr := h.arcAddr }

/-- `brightness` called through a handle reads the record the handle's `Arc`
points to. -/
def hBrightness (heap : RecHeap) (h : Handle) (channel : Nat) : Option Nat :=
  brightness (heap h.arcAddr) channel

/-- `set_brightness` called through a handle mutates, in place, the record
the handle's `Arc` points to. -/
def hSetBrightness (heap : RecHeap) (h : Handle) (channel value : Nat) : Option RecHeap :=
  (set_brightness (heap h.arcAddr) channel value).map
    (fun r => fun a => if a = h.arcAddr then r else heap a)

/-- `leds` called through a handle builds its view from the record the
handle's `Arc` points to. -/
def hLeds (heap : RecHeap) (h : Handle) (channel : Nat) : Option LedView :=
  leds (heap h.arcAddr) channel

end Controller

/-- The record-touching operations of the controller API, used to state
invariants over arbitrary call sequences. -/
inductive COp where
  | opSetBrightness (channel value : Nat)
  | opBrightness (channel : Nat)
  | opChannels
  | opLeds (channel : Nat)
  | opLedsMut (channel : Nat)
  | opRender
  | opWait
deriving DecidableEq, Repr

namespace Controller

/-- Effect of one operation on the shared record.  `set_brightness` is the
only mutator (render/wait hand the record to the driver, which reads buffers
but never changes counts, brightness or pointers; the read accessors take
`&self`).  An out-of-range `set_brightness` panics, so the record it leaves
behind is unchanged. -/
def applyOp (s : Ws2811T) : COp → Ws2811T
  | .opSetBrightness c v => (set_brightness s c v).getD s
  | _ => s

end Controller

/-- Whether an operation is one of the read-only accessors. -/
def COp.isReadOnly : COp → Bool
  | .opSetBrightness _ _ => false
  | _ => true

/-! ## Concrete example records used by the witnesses -/

/-- A two-channel record: channel 0 unused (`count = 0`), channel 1 with
three LEDs at buffer address 100 and brightness 128. -/
def exRecord : Ws2811T :=
  { channel := [{ count := 0, brightness := 0, leds := 0 },
                { count := 3, brightness := 128, leds := 100 }] }

/-- `exRecord` after `set_brightness(1, 42)`. -/
def exRecord2 : Ws2811T :=
  { channel := [{ count := 0, brightness := 0, leds := 0 },
                { count := 3, brightness := 42, leds := 100 }] }

/-! ## Helper lemmas -/

/-- A successful `set_brightness` rewrites exactly entry `c` of the channel
list, replacing its brightness with `v`. -/
theorem set_brightness_some (s s2 : Ws2811T) (c v : Nat)
    (h : Controller.set_brightness s c v = some s2) :
    ∃ ch, s.channel[c]? = some ch ∧
      s2.channel = s.channel.set c { ch with brightness := v } := by
  unfold Controller.set_brightness at h
  cases hg : s.channel[c]? with
  | none => rw [hg] at h; cases h
  | some ch =>
      rw [hg] at h
      simp only [Option.some.injEq] at h
      subst h
      exact ⟨ch, rfl, rfl⟩

/-- `set_brightness` succeeds exactly on in-range channel indices. -/
theorem set_brightness_isSome (s : Ws2811T) (c v : Nat)
    (hc : c < s.channel.length) :
    (Controller.set_brightness s c v).isSome := by
  unfold Controller.set_brightness
  rw [List.getElem?_eq_getElem hc]
  rfl

/-- Reading brightness after a successful `set_brightness` on the same
channel yields the value just stored. -/
theorem brightness_after_set (s s2 : Ws2811T) (c v : Nat)
    (h : Controller.set_brightness s c v = some s2) :
    Controller.brightness s2 c = some v := by
  obtain ⟨ch, hg, hch⟩ := set_brightness_some s s2 c v h
  have hc : c < s.channel.length := by
    rw [List.getElem?_eq_some] at hg
    exact hg.1
  unfold Controller.brightness
  rw [hch, List.getElem?_set_eq_of_lt _ hc]
  rfl

/-- Read-only operations leave the record untouched. -/
theorem applyOp_readOnly (s : Ws2811T) (op : COp)
    (h : op.isReadOnly = true) :
    Controller.applyOp s op = s := by
  cases op <;> first
    | rfl
    | simp [COp.isReadOnly] at h

/-- A sequence of read-only operations leaves the record untouched. -/
theorem foldl_applyOp_readOnly (s : Ws2811T) (ops : List COp)
    (h : ∀ op ∈ ops, op.isReadOnly = true) :
    ops.foldl Controller.applyOp s = s := by
  induction ops generalizing s with
  | nil => rfl
  | cons op rest ih =>
      rw [List.foldl_cons, applyOp_readOnly s op (h op (List.mem_cons_self op rest))]
      exact ih s (fun o ho => h o (List.mem_cons_of_mem op ho))

/-- No operation changes the channel-list length, and no operation changes
any channel's LED count (set_brightness touches only the brightness
field). -/
theorem applyOp_preserves_counts (s : Ws2811T) (op : COp) (j : Nat) :
    (Controller.applyOp s op).channel.length = s.channel.length
    ∧ ((Controller.applyOp s op).channel[j]?).map (fun ch => ch.count)
        = (s.channel[j]?).map (fun ch => ch.count) := by
  cases op with
  | opSetBrightness c v =>
      show ((Controller.set_brightness s c v).getD s).channel.length = _
        ∧ (((Controller.set_brightness s c v).getD s).channel[j]?).map _ = _
      cases hs : Controller.set_brightness s c v with
      | none => exact ⟨rfl, rfl⟩
      | some s2 =>
          obtain ⟨ch, hg, hch⟩ := set_brightness_some s s2 c v hs
          have hc : c < s.channel.length := by
            rw [List.getElem?_eq_some] at hg
            exact hg.1
          refine ⟨by simp [hch], ?_⟩
          by_cases hj : j = c
          · subst hj
            simp [hch, List.getElem?_set_eq_of_lt _ hc, hg]
          · simp [hch, List.getElem?_set_ne (Ne.symm hj)]
  | opBrightness c => exact ⟨rfl, rfl⟩
  | opChannels => exact ⟨rfl, rfl⟩
  | opLeds c => exact ⟨rfl, rfl⟩
  | opLedsMut c => exact ⟨rfl, rfl⟩
  | opRender => exact ⟨rfl, rfl⟩
  | opWait => exact ⟨rfl, rfl⟩

/-- Channel-list length and per-channel LED counts are invariant under every
sequence of controller operations. -/
theorem foldl_applyOp_preserves_counts (s : Ws2811T) (ops : List COp) (j : Nat) :
    (ops.foldl Controller.applyOp s).channel.length = s.channel.length
    ∧ ((ops.foldl Controller.applyOp s).channel[j]?).map (fun ch => ch.count)
        = (s.channel[j]?).map (fun ch => ch.count) := by
  induction ops generalizing s with
  | nil => exact ⟨rfl, rfl⟩
  | cons op rest ih =>
      rw [List.foldl_cons]
      obtain ⟨h1, h2⟩ := ih (Controller.applyOp s op)
      obtain ⟨g1, g2⟩ := applyOp_preserves_counts s op j
      exact ⟨h1.trans g1, h2.trans g2⟩

/-! ## The specification claims -/

/-- C3: for every state of the shared record, `channels()` returns exactly
the channel indices whose `count > 0`, in ascending order; it is a read-only
operation with no side effect on the record, and any sequence of read-only
operations (no mutation) in between leaves its result unchanged. -/
theorem channels_active_sorted_stable (s : Ws2811T) :
    (∀ i, i ∈ Controller.channels s ↔
        i < s.channel.length ∧ 0 < (s.channel.getD i default).count)
    ∧ List.Sorted (· < ·) (Controller.channels s)
    ∧ (∀ op : COp, op.isReadOnly = true → Controller.applyOp s op = s)
    ∧ (∀ ops : List COp, (∀ op ∈ ops, op.isReadOnly = true) →
        Controller.channels (ops.foldl Controller.applyOp s)
          = Controller.channels s) := by
  refine ⟨?_, ?_, ?_, ?_⟩
  · intro i
    simp [Controller.channels, List.mem_filter, List.mem_range]
  · exact List.Pairwise.filter _ (List.sorted_lt_range _)
  · exact applyOp_readOnly s
  · intro ops h
    rw [foldl_applyOp_readOnly s ops h]

/-- Witness for C3 at a concrete record: the channel scan is unchanged by a
read-only call, and index 1 (the only channel with `count > 0`) is reported
active. -/
theorem channels_active_sorted_stable_witness :
    Controller.channels ([COp.opBrightness 0].foldl Controller.applyOp exRecord)
      = Controller.channels exRecord
    ∧ (1 ∈ Controller.channels exRecord ↔
        1 < exRecord.channel.length ∧ 0 < (exRecord.channel.getD 1 default).count) :=
  ⟨(channels_active_sorted_stable exRecord).2.2.2 [COp.opBrightness 0] (by decide),
   (channels_active_sorted_stable exRecord).1 1⟩

/-- C4: on an in-range channel, `set_brightness(c, v)` followed by
`brightness(c)` returns `v`, for every byte value `v`; the byte is stored
verbatim, with no validation or clamping. -/
theorem set_brightness_roundtrip (s : Ws2811T) (c v : Nat)
    (hc : c < s.channel.length) (_hv : v ≤ 255) :
    (Controller.set_brightness s c v).bind
      (fun s2 => Controller.brightness s2 c) = some v := by
  cases hs : Controller.set_brightness s c v with
  | none =>
      have := set_brightness_isSome s c v hc
      rw [hs] at this
      cases this
  | some s2 =>
      rw [Option.some_bind]
      exact brightness_after_set s s2 c v hs

/-- C5: the slice views produced by `leds` and `leds_mut` each have length
exactly the channel's `count`, and neither the channel-list length nor any
channel's `count` ever changes under any sequence of controller
operations. -/
theorem leds_views_length (s : Ws2811T) (c : Nat) :
    (∀ view, Controller.leds s c = some view →
        ∀ m : Mem, (Controller.LedView.toList view m).length
          = (s.channel.getD c default).count)
    ∧ (∀ view, Controller.leds_mut s c = some view →
        ∀ m : Mem, (Controller.LedView.toList view m).length
          = (s.channel.getD c default).count)
    ∧ (∀ ops : List COp,
        (ops.foldl Controller.applyOp s).channel.length = s.channel.length
        ∧ ((ops.foldl Controller.applyOp s).channel[c]?).map (fun ch => ch.count)
            = (s.channel[c]?).map (fun ch => ch.count)) := by
  have hview : ∀ view, Controller.leds s c = some view →
      view.count = (s.channel.getD c default).count := by
    intro view hv
    unfold Controller.leds at hv
    cases hg : s.channel[c]? with
    | none => rw [hg] at hv; cases hv
    | some ch =>
        rw [hg] at hv
        simp only [Option.some.injEq] at hv
        subst hv
        rw [List.getD_eq_getElem?_getD, hg]
        rfl
  have hmut_eq : Controller.leds_mut s c = Controller.leds s c := by
    unfold Controller.leds Controller.leds_mut
    rfl
  refine ⟨?_, ?_, fun ops => foldl_applyOp_preserves_counts s ops c⟩
  · intro view hv m
    rw [Controller.LedView.toList, List.length_map, List.length_range]
    exact hview view hv
  · intro view hv m
    rw [hmut_eq] at hv
    rw [Controller.LedView.toList, List.length_map, List.length_range]
    exact hview view hv

/-- Witness for C5: at the concrete record, channel 1 yields the view
`(ptr 100, count 3)` whose slice has length 3, stable under a brightness
write. -/
theorem leds_views_length_witness :
    (Controller.LedView.toList ⟨100, 3⟩ (fun _ => 0)).length
      = (exRecord.channel.getD 1 default).count
    ∧ (([COp.opSetBrightness 1 7].foldl Controller.applyOp exRecord).channel[1]?).map
        (fun ch => ch.count) = (exRecord.channel[1]?).map (fun ch => ch.count) :=
  ⟨(leds_views_length exRecord 1).1 ⟨100, 3⟩ rfl (fun _ => 0),
   ((leds_views_length exRecord 1).2.2 [COp.opSetBrightness 1 7]).2⟩

/-- C6: the views returned by `leds_mut` and `leds` for the same channel are
the same pointer/length pair, so a write of `x` through the mutable view at
index `i` is observed as `x` when reading index `i` through the read-only
view, with no intervening render. -/
theorem leds_mut_aliases_leds (s : Ws2811T) (c i : Nat) (x : RawColor)
    (m m2 : Mem) (vw vr : Controller.LedView)
    (hmut : Controller.leds_mut s c = some vw)
    (hrd : Controller.leds s c = some vr)
    (hw : Controller.LedView.write vw m i x = some m2) :
    vr = vw ∧ Controller.LedView.read vr m2 i = some x := by
  have hvv : vr = vw := by
    unfold Controller.leds at hrd
    unfold Controller.leds_mut at hmut
    cases hg : s.channel[c]? with
    | none => rw [hg] at hrd; cases hrd
    | some ch =>
        rw [hg] at hrd hmut
        simp only [Option.some.injEq] at hrd hmut
        rw [← hrd, ← hmut]
  subst hvv
  refine ⟨rfl, ?_⟩
  unfold Controller.LedView.write at hw
  by_cases hi : i < vr.count
  · rw [if_pos hi] at hw
    simp only [Option.some.injEq] at hw
    subst hw
    unfold Controller.LedView.read
    rw [if_pos hi]
    simp [memWrite]
  · rw [if_neg hi] at hw
    cases hw

/-- Witness for C6: at the concrete record, channel 1, writing 9 at index 0
through the mutable view and reading index 0 through the read-only view
yields 9. -/
theorem leds_mut_aliases_leds_witness :
    Controller.LedView.read ⟨100, 3⟩ (memWrite (fun _ => 0) 100 9) 0 = some 9 :=
  (leds_mut_aliases_leds exRecord 1 0 9 (fun _ => 0)
    (memWrite (fun _ => 0) 100 9) ⟨100, 3⟩ ⟨100, 3⟩ rfl rfl rfl).2

/-- Witness for C4: at the concrete record, channel 1, `v = 255`. -/
theorem set_brightness_roundtrip_witness :
    (Controller.set_brightness exRecord 1 255).bind
      (fun s2 => Controller.brightness s2 1) = some 255 :=
  set_brightness_roundtrip exRecord 1 255 (by decide) (by decide)

/-- C7: a cloned handle aliases the same underlying record: a brightness
mutation performed through the clone is observed by a read through the
original handle, and buffer views obtained through either handle are
identical. -/
theorem clone_observes_same_record (heap heap2 : RecHeap) (h : Handle)
    (c v : Nat)
    (hset : Controller.hSetBrightness heap (Controller.cloneOf h) c v = some heap2) :
    Controller.hBrightness heap2 h c = some v
    ∧ ∀ c2, Controller.hLeds heap2 h c2
        = Controller.hLeds heap2 (Controller.cloneOf h) c2 := by
  refine ⟨?_, fun c2 => rfl⟩
  unfold Controller.hSetBrightness at hset
  cases hs : Controller.set_brightness (heap h.arcAddr) c v with
  | none =>
      rw [show Controller.cloneOf h = h from rfl, hs] at hset
      cases hset
  | some s2 =>
      rw [show Controller.cloneOf h = h from rfl, hs] at hset
      have hset2 := Option.some.inj hset
      subst hset2
      unfold Controller.hBrightness
      show Controller.brightness
        (if h.arcAddr = h.arcAddr then s2 else heap h.arcAddr) c = some v
      rw [if_pos rfl]
      exact brightness_after_set (heap h.arcAddr) s2 c v hs

/-- Witness for C7: a concrete heap with `exRecord` at address 0; setting
brightness 42 on channel 1 through the clone is read back through the
original handle. -/
theorem clone_observes_same_record_witness :
    Controller.hBrightness
      (fun a => if a = (Handle.mk 0).arcAddr then exRecord2 else (fun _ => exRecord) a)
      ⟨0⟩ 1 = some 42 :=
  (clone_observes_same_record (fun _ => exRecord)
    (fun a => if a = (Handle.mk 0).arcAddr then exRecord2 else (fun _ => exRecord) a)
    ⟨0⟩ 1 42 rfl).1

/-- C8: every channel-indexed operation (`brightness`, `set_brightness`,
`leds`, `leds_mut`) faults (panics) on an out-of-range channel index instead
of returning a recoverable error, and cannot fail when the index is in
range. -/
theorem channel_index_fault_contract (s : Ws2811T) (c v : Nat) :
    (s.channel.length ≤ c →
        Controller.brightness s c = none
        ∧ Controller.set_brightness s c v = none
        ∧ Controller.leds s c = none
        ∧ Controller.leds_mut s c = none)
    ∧ (c < s.channel.length →
        (Controller.brightness s c).isSome
        ∧ (Controller.set_brightness s c v).isSome
        ∧ (Controller.leds s c).isSome
        ∧ (Controller.leds_mut s c).isSome) := by
  constructor
  · intro hle
    have hg : s.channel[c]? = none := List.getElem?_eq_none hle
    exact ⟨by simp [Controller.brightness, hg],
           by simp [Controller.set_brightness, hg],
           by simp [Controller.leds, hg],
           by simp [Controller.leds_mut, hg]⟩
  · intro hlt
    have hg : s.channel[c]? = some (s.channel.get ⟨c, hlt⟩) :=
      List.getElem?_eq_getElem hlt
    exact ⟨by simp [Controller.brightness, hg],
           by simp [Controller.set_brightness, hg],
           by simp [Controller.leds, hg],
           by simp [Controller.leds_mut, hg]⟩

/-- Witness for C8: at the concrete two-channel record, index 5 faults and
index 1 succeeds. -/
theorem channel_index_fault_contract_witness :
    Controller.brightness exRecord 5 = none
    ∧ (Controller.brightness exRecord 1).isSome :=
  ⟨((channel_index_fault_contract exRecord 5 0).1 (by decide)).1,
   ((channel_index_fault_contract exRecord 1 0).2 (by decide)).1⟩

/-- C10: a successful `set_brightness(c, v)` changes only the brightness
field of channel `c`: the channel-list length is unchanged, every other
channel's entry is unchanged, and channel `c` keeps its `count` and buffer
pointer while its brightness becomes `v`. -/
theorem set_brightness_frame (s s2 : Ws2811T) (c v : Nat)
    (h : Controller.set_brightness s c v = some s2) :
    s2.channel.length = s.channel.length
    ∧ (∀ j, j ≠ c → s2.channel[j]? = s.channel[j]?)
    ∧ ∃ ch, s.channel[c]? = some ch
        ∧ s2.channel[c]? = some { count := ch.count, brightness := v, leds := ch.leds } := by
  obtain ⟨ch, hg, hch⟩ := set_brightness_some s s2 c v h
  have hc : c < s.channel.length := by
    rw [List.getElem?_eq_some] at hg
    exact hg.1
  refine ⟨by simp [hch], ?_, ch, hg, ?_⟩
  · intro j hj
    rw [hch, List.getElem?_set_ne (Ne.symm hj)]
  · rw [hch, List.getElem?_set_eq_of_lt _ hc]

/-- Witness for C10: the concrete `set_brightness(1, 42)` on the example
record leaves channel 0 untouched and only rewrites channel 1's
brightness. -/
theorem set_brightness_frame_witness :
    exRecord2.channel.length = exRecord.channel.length
    ∧ exRecord2.channel[0]? = exRecord.channel[0]? :=
  ⟨(set_brightness_frame exRecord exRecord2 1 42 rfl).1,
   (set_brightness_frame exRecord exRecord2 1 42 rfl).2.1 0 (by decide)⟩

/-- C2: for every driver status, `render()` and `wait()` return success
exactly when the driver's corresponding operation succeeds, propagate the
exact failure kind on failure, and invoke the driver operation exactly once
(the call counter advances by one, the result is the one the driver returns
for that single call, and no retry or local recovery occurs); the record is
left unchanged. -/
theorem render_wait_propagate_exact (d : Driver) (st : CState) :
    (Controller.render d st).1 = d.renderResult st.renderCalls
    ∧ (Controller.render d st).2
        = { st with renderCalls := st.renderCalls + 1 }
    ∧ (Controller.wait d st).1 = d.waitResult st.waitCalls
    ∧ (Controller.wait d st).2
        = { st with waitCalls := st.waitCalls + 1 } := by
  refine ⟨?_, ?_, ?_, ?_⟩
  · unfold Controller.render
    cases h : d.renderResult st.renderCalls with
    | ok u => cases u; rfl
    | error e => rfl
  · unfold Controller.render
    cases h : d.renderResult st.renderCalls with
    | ok u => rfl
    | error e => rfl
  · unfold Controller.wait
    cases h : d.waitResult st.waitCalls with
    | ok u => cases u; rfl
    | error e => rfl
  · unfold Controller.wait
    cases h : d.waitResult st.waitCalls with
    | ok u => rfl
    | error e => rfl

/-- C1 (falsified by the code): `Drop for Controller` calls `ws2811_fini`
unconditionally, so dropping each of `n` live handles produces `n` finalize
invocations, not one; in particular, with two cloned handles both dropped,
`ws2811_fini` runs twice, and the second handle's drop happens with the
first finalize already performed. -/
theorem fini_runs_on_every_drop :
    (∀ n a, (Controller.dropN n a).finiCalls = a.finiCalls + n)
    ∧ Controller.dropN 2 (Controller.cloneHandle { strong := 1, finiCalls := 0 })
        = { strong := 0, finiCalls := 2 } := by
  constructor
  · intro n
    induction n with
    | zero => intro a; rfl
    | succ k ih =>
        intro a
        rw [Controller.dropN, ih]
        show a.finiCalls + 1 + k = a.finiCalls + (k + 1)
        omega
  · rfl

end Ws281x
